import Mathlib

/-!
Shallow embedding of the tabprinter table renderer (src/src/lib.rs) and
proofs of the specification claims about it.

Conventions of the embedding:
* Rust `usize` arithmetic that can panic (overflow-checked add/sub, division
  by zero) is modelled with `Option`: `none` marks the panic.  `USIZE_MAX`
  is `2 ^ 64 - 1`.
* Output written to a sink is modelled as a `String`; the colorized path
  additionally carries color directives and the interactive pagination pause
  as explicit events (`OutEvent`).  Contiguous plain writes are merged into
  single `write` events; the byte content is preserved exactly.
* Rust `String::len` (a byte count) is `String.utf8ByteSize`; the character
  count used by Rust's format-width padding is `String.length`.
* `row[i]` indexing inside `calculate_column_widths` is total here
  (`List.getD _ _ ""`); theorems that depend on it carry the row-arity
  invariant enforced by `add_row`, under which the default is never used.
-/

set_option autoImplicit false

universe u v

namespace Tabprinter

inductive TableStyle
  | Simple | Grid | FancyGrid | Clean | Round | Banner | Block
  | Amiga | Minimal | Compact | Markdown | Dotted | Heavy | Neon
deriving DecidableEq, Repr

inductive Alignment
  | Left | Center | Right
deriving DecidableEq, Repr

structure LineStyle where
  begin : String
  hline : String
  sep : String
  end_ : String
deriving DecidableEq, Repr

structure TableStyleConfig where
  top : LineStyle
  below_header : LineStyle
  bottom : LineStyle
  row : LineStyle
deriving DecidableEq, Repr

/-- The style registry `STYLES`, transcribed entry by entry from the
`define_styles!` invocation in src/src/lib.rs (order: Simple, Grid,
FancyGrid, Clean, Round, Banner, Block, Amiga, Minimal, Compact, Markdown,
Dotted, Heavy, Neon; each config lists top, below_header, bottom, row). -/
def STYLES : List TableStyleConfig := [
  ⟨⟨"", "", "", ""⟩, ⟨"", "", "", ""⟩, ⟨"", "", "", ""⟩, ⟨"", "", "", ""⟩⟩,
  ⟨⟨"+", "-", "+", "+"⟩, ⟨"+", "-", "+", "+"⟩, ⟨"+", "-", "+", "+"⟩, ⟨"|", "", "|", "|"⟩⟩,
  ⟨⟨"╒", "═", "╤", "╕"⟩, ⟨"╞", "═", "╪", "╡"⟩, ⟨"╘", "═", "╧", "╛"⟩, ⟨"│", "", "│", "│"⟩⟩,
  ⟨⟨"", "─", " ", ""⟩, ⟨"", "─", " ", ""⟩, ⟨"", "─", " ", ""⟩, ⟨"", "", " ", ""⟩⟩,
  ⟨⟨"╭", "─", "┬", "╮"⟩, ⟨"├", "─", "┼", "┤"⟩, ⟨"╰", "─", "┴", "╯"⟩, ⟨"│", "", "│", "│"⟩⟩,
  ⟨⟨"╒", "═", "╤", "╕"⟩, ⟨"╘", "═", "╧", "╛"⟩, ⟨"╘", "═", "╧", "╛"⟩, ⟨"│", "", "│", "│"⟩⟩,
  ⟨⟨"◢", "■", "■", "◣"⟩, ⟨" ", "━", "━", " "⟩, ⟨"◥", "■", "■", "◤"⟩, ⟨"", "", " ", ""⟩⟩,
  ⟨⟨"", "", "", ""⟩, ⟨"", "", "", ""⟩, ⟨"", "", "", ""⟩, ⟨"", "", "", ""⟩⟩,
  ⟨⟨"┌", "─", "┬", "┐"⟩, ⟨"├", "─", "┼", "┤"⟩, ⟨"└", "─", "┴", "┘"⟩, ⟨"│", "", "│", "│"⟩⟩,
  ⟨⟨"┌", "─", "┬", "┐"⟩, ⟨"├", "─", "┼", "┤"⟩, ⟨"└", "─", "┴", "┘"⟩, ⟨"│", "", "│", "│"⟩⟩,
  ⟨⟨"", "", "", ""⟩, ⟨"|", "-", "|", "|"⟩, ⟨"", "", "", ""⟩, ⟨"|", "", "|", "|"⟩⟩,
  ⟨⟨".", ".", ".", "."⟩, ⟨":", ".", ":", ":"⟩, ⟨"'", ".", "'", "'"⟩, ⟨":", "", ":", ":"⟩⟩,
  ⟨⟨"┏", "━", "┳", "┓"⟩, ⟨"┣", "━", "╋", "┫"⟩, ⟨"┗", "━", "┻", "┛"⟩, ⟨"┃", "", "┃", "┃"⟩⟩,
  ⟨⟨"┏", "━", "┳", "┓"⟩, ⟨"┣", "━", "╋", "┫"⟩, ⟨"┗", "━", "┻", "┛"⟩, ⟨"┃", "", "┃", "┃"⟩⟩]

/-- Indexing `STYLES[i]`; all indices used by the renderer are in bounds,
so the default is never reached on the renderer's code paths. -/
def styleAt (i : Nat) : TableStyleConfig :=
  STYLES.getD i ⟨⟨"", "", "", ""⟩, ⟨"", "", "", ""⟩, ⟨"", "", "", ""⟩, ⟨"", "", "", ""⟩⟩

/-- The declaration-order index of a style in the `STYLES` registry
(the discriminant of the `TableStyle` enum). -/
def style_index : TableStyle → Nat
  | .Simple => 0
  | .Grid => 1
  | .FancyGrid => 2
  | .Clean => 3
  | .Round => 4
  | .Banner => 5
  | .Block => 6
  | .Amiga => 7
  | .Minimal => 8
  | .Compact => 9
  | .Markdown => 10
  | .Dotted => 11
  | .Heavy => 12
  | .Neon => 13

def line_empty (l : LineStyle) : Bool :=
  l.begin == "" && l.hline == "" && l.sep == "" && l.end_ == ""

def config_empty (c : TableStyleConfig) : Bool :=
  line_empty c.top && line_empty c.below_header && line_empty c.bottom && line_empty c.row

structure Column where
  header : String
  width : Option Nat
  alignment : Alignment
deriving DecidableEq, Repr

structure Table where
  columns : List Column
  rows : List (List String)
  style : TableStyle
  auto_width : Bool
  page_size : Option Nat
deriving DecidableEq, Repr

/-- One color directive, plain write, or interactive pause of the
colorized output stream. -/
inductive OutEvent
  | write (s : String)
  | set_color (c : String)
  | pause
deriving DecidableEq, Repr

def USIZE_MAX : Nat := 2 ^ 64 - 1

/-- Rust `usize` addition: `none` marks the overflow panic. -/
def usize_add (a b : Nat) : Option Nat :=
  if a + b ≤ USIZE_MAX then some (a + b) else none

/-- Rust `usize` subtraction: `none` marks the underflow panic. -/
def usize_sub (a b : Nat) : Option Nat :=
  if b ≤ a then some (a - b) else none

def spaces (n : Nat) : String := String.mk (List.replicate n ' ')

/-- Rust format padding `{:<width$}` / `{:^width$}` / `{:>width$}` on a
string slice: pad with spaces up to `w` characters; center puts the extra
odd space on the right. -/
def pad (a : Alignment) (w : Nat) (s : String) : String :=
  let n := s.length
  if w ≤ n then s
  else
    match a with
    | .Left => s ++ spaces (w - n)
    | .Right => spaces (w - n) ++ s
    | .Center => spaces ((w - n) / 2) ++ s ++ spaces ((w - n) - (w - n) / 2)

/-- `str::repeat`. -/
def str_repeat (s : String) (n : Nat) : String := String.join (List.replicate n s)

/-- Sequencing of fallible steps over a list (the `try_for_each` / `?`
pattern): `none` as soon as one step fails. -/
def mapOpt {α : Type u} {β : Type v} (f : α → Option β) : List α → Option (List β)
  | [] => some []
  | a :: l => (f a).bind fun b => (mapOpt f l).map fun bs => b :: bs

namespace Table

def new (style : TableStyle) : Table :=
  { columns := [], rows := [], style := style, auto_width := true, page_size := none }

def add_column (t : Table) (header : String) (width : Option Nat) (alignment : Alignment) : Table :=
  { t with columns := t.columns ++ [{ header := header, width := width, alignment := alignment }] }

/-- `Table::add_row`: the `assert_eq!` on the arity is the `none` case. -/
def add_row (t : Table) (row : List String) : Option Table :=
  if t.columns.length = row.length then some { t with rows := t.rows ++ [row] } else none

def set_page_size (t : Table) (p : Nat) : Table := { t with page_size := some p }

/-- The per-column step of `calculate_column_widths`: a column with unset
width gets `max(cell lengths at position i, header length) + 2`
(the Rust `chain(once(header.len())).max().unwrap_or(0)`). -/
def resolve_one (rows : List (List String)) (i : Nat) (c : Column) : Column :=
  match c.width with
  | some _ => c
  | none =>
    let m : Nat :=
      ((rows.map fun (r : List String) => (r.getD i "").utf8ByteSize)
          ++ [c.header.utf8ByteSize]).foldr Nat.max 0
    { c with width := some (m + 2) }

/-- The `iter_mut().enumerate()` loop of `calculate_column_widths`. -/
def resolve_cols (rows : List (List String)) : Nat → List Column → List Column
  | _, [] => []
  | i, c :: cs => resolve_one rows i c :: resolve_cols rows (i + 1) cs

def calculate_column_widths (t : Table) : Table :=
  if t.auto_width then { t with columns := resolve_cols t.rows 0 t.columns } else t

/-- `Table::print_headers`: each header padded to `width - 1` (unchecked
`usize` subtraction), single space between columns, trailing newline. -/
def print_headers (t : Table) : Option String :=
  (mapOpt (fun c => (usize_sub (c.width.getD 0) 1).map fun w => pad c.alignment w c.header)
      t.columns).map
    fun cells => String.intercalate " " cells ++ "\n"

/-- `Table::print_row`: columns zipped with the row's cells, each cell
padded to `width - 1` (unchecked `usize` subtraction) and followed by a
space, trailing newline. -/
def print_row (t : Table) (row : List String) : Option String :=
  (mapOpt
      (fun pr => (usize_sub (pr.1.width.getD 0) 1).map fun w => pad pr.1.alignment w pr.2 ++ " ")
      (t.columns.zip row)).map
    fun cells => String.join cells ++ "\n"

/-- `Table::print_line`: begin glyph, per column the hline glyph repeated
`width + 2` times, separator glyph between columns, end glyph, newline. -/
def print_line (t : Table) (ls : LineStyle) : String :=
  ls.begin
    ++ String.intercalate ls.sep (t.columns.map fun c => str_repeat ls.hline (c.width.getD 0 + 2))
    ++ ls.end_ ++ "\n"

/-- `Table::print_row_styled`: cells zipped with columns, each rendered as
one space, the cell padded to the full column width, one space; separator
glyph between columns, begin/end caps, newline. -/
def print_row_styled (t : Table) (row : List String) (ls : LineStyle) : String :=
  ls.begin
    ++ String.intercalate ls.sep
        ((row.zip t.columns).map fun pr => " " ++ pad pr.2.alignment (pr.2.width.getD 0) pr.1 ++ " ")
    ++ ls.end_ ++ "\n"

/-- `Table::print_simple`: the unbordered path, headers then all rows. -/
def print_simple (t : Table) : Option String :=
  (print_headers t).bind fun h =>
    (mapOpt (print_row t) t.rows).map fun ls => h ++ String.join ls

/-- `Table::print_styled`: top border, header row, below-header border,
data rows, bottom border. -/
def print_styled (t : Table) (cfg : TableStyleConfig) : String :=
  print_line t cfg.top
    ++ print_row_styled t (t.columns.map fun c => c.header) cfg.row
    ++ print_line t cfg.below_header
    ++ String.join (t.rows.map fun r => print_row_styled t r cfg.row)
    ++ print_line t cfg.bottom

/-- `Table::print_to_writer`: the plain-sink dispatch, exactly as the
`match self.style` in the source (Markdown, Dotted, Heavy, Neon and the
rest of the tail arms go to `print_simple`). -/
def print_to_writer (t : Table) : Option String :=
  match t.style with
  | .Simple => print_simple t
  | .Grid => some (print_styled t (styleAt 1))
  | .FancyGrid => some (print_styled t (styleAt 2))
  | .Clean => some (print_styled t (styleAt 3))
  | .Round => some (print_styled t (styleAt 4))
  | .Banner => some (print_styled t (styleAt 5))
  | .Block => some (print_styled t (styleAt 6))
  | .Amiga => print_simple t
  | .Minimal => print_simple t
  | .Compact => print_simple t
  | .Markdown => print_simple t
  | .Dotted => print_simple t
  | .Heavy => print_simple t
  | .Neon => print_simple t

/-- `Table::print_amiga_color`: blue foreground, headers, white
foreground, data rows. -/
def print_amiga_color (t : Table) : Option (List OutEvent) :=
  (print_headers t).bind fun h =>
    (mapOpt (print_row t) t.rows).map fun rs =>
      [OutEvent.set_color "Blue", OutEvent.write h, OutEvent.set_color "White"]
        ++ rs.map OutEvent.write

/-- `Table::print_color`: resolves widths first, then dispatches with the
`STYLES` indices of the source (`Minimal => STYLES[7]`, ...,
`Neon => STYLES[12]`). -/
def print_color (t0 : Table) : Option (List OutEvent) :=
  let t := calculate_column_widths t0
  match t.style with
  | .Simple => (print_simple t).map fun s => [OutEvent.write s]
  | .Grid => some [OutEvent.write (print_styled t (styleAt 1))]
  | .FancyGrid => some [OutEvent.write (print_styled t (styleAt 2))]
  | .Clean => some [OutEvent.write (print_styled t (styleAt 3))]
  | .Round => some [OutEvent.write (print_styled t (styleAt 4))]
  | .Banner => some [OutEvent.write (print_styled t (styleAt 5))]
  | .Block => some [OutEvent.write (print_styled t (styleAt 6))]
  | .Amiga => print_amiga_color t
  | .Minimal => some [OutEvent.write (print_styled t (styleAt 7))]
  | .Compact => some [OutEvent.write (print_styled t (styleAt 8))]
  | .Markdown => some [OutEvent.write (print_styled t (styleAt 9))]
  | .Dotted => some [OutEvent.write (print_styled t (styleAt 10))]
  | .Heavy => some [OutEvent.write (print_styled t (styleAt 11))]
  | .Neon => some [OutEvent.write (print_styled t (styleAt 12))]

/-- `Table::print_page`: headers followed by the row slice
`rows[start..end]`. -/
def print_page (t : Table) (s e : Nat) : Option String :=
  (print_headers t).bind fun h =>
    (mapOpt (print_row t) ((t.rows.drop s).take (e - s))).map fun rs => h ++ String.join rs

/-- `Table::print_color_paginated`: `page_size` defaults to the row count;
`(len + page_size - 1) / page_size` in checked `usize` arithmetic; one
page header, page body, and (for every page but the last) the
press-enter prompt and the blocking stdin read (`pause`). -/
def print_color_paginated (t : Table) : Option (List OutEvent) :=
  let ps := t.page_size.getD t.rows.length
  (usize_add t.rows.length ps).bind fun sum =>
    (usize_sub sum 1).bind fun num =>
      if ps = 0 then none
      else
        let total := num / ps
        (mapOpt (fun page =>
            let s := page * ps
            let e := min ((page + 1) * ps) t.rows.length
            (print_page t s e).map fun body =>
              [OutEvent.write ("Page " ++ toString (page + 1) ++ " of " ++ toString total ++ "\n"),
                OutEvent.write body]
                ++ if page < total - 1 then
                    [OutEvent.write "Press Enter to continue...\n", OutEvent.pause]
                  else [])
          (List.range total)).map List.flatten

/-- `Table::to_csv` at the record level: the rows, and only the rows, are
written out (the csv collaborator is modelled as a list of records). -/
def to_csv (t : Table) : List (List String) := t.rows

/-- The `for result in reader.records()` loop of `from_csv`. -/
def add_all (t : Table) : List (List String) → Option Table
  | [] => some t
  | r :: rs =>
    match add_row t r with
    | some t' => add_all t' rs
    | none => none

/-- `Table::from_csv` at the record level: the first record is the header
row; every header becomes a column with width `Some(10)` and `Left`
alignment; the remaining records are added with `add_row`. -/
def from_csv (records : List (List String)) : Option Table :=
  let headers := records.headD []
  let t0 : Table :=
    { columns := headers.map fun h => { header := h, width := some 10, alignment := Alignment.Left },
      rows := [], style := TableStyle.Simple, auto_width := true, page_size := none }
  add_all t0 records.tail

/-- Modelled from the spec: `filter(predicate) -> new Table` is absent
from src/src/lib.rs (only the examples call it).  Per the spec it returns
a new Table with the same columns and style, containing only the rows for
which the predicate holds, and does not mutate the source. -/
def filter (t : Table) (p : List String → Bool) : Table :=
  { t with rows := t.rows.filter p }

/-- The header line of the unbordered path, as a total function: every
header padded to `width - 1`, single space between columns, newline.
Equal to `print_headers` whenever every column width is at least 1. -/
def headers_line (t : Table) : String :=
  String.intercalate " " (t.columns.map fun c => pad c.alignment (c.width.getD 0 - 1) c.header) ++ "\n"

/-- A data line of the unbordered path, as a total function: each cell
padded to `width - 1` and followed by a space, newline.  Equal to
`print_row` whenever every column width is at least 1. -/
def row_line (t : Table) (row : List String) : String :=
  String.join ((t.columns.zip row).map fun pr => pad pr.1.alignment (pr.1.width.getD 0 - 1) pr.2 ++ " ") ++ "\n"

end Table

section Lemmas

open Table

variable {α : Type u} {β : Type v}

theorem mapOpt_eq_map (f : α → Option β) (g : α → β) :
    ∀ l : List α, (∀ a ∈ l, f a = some (g a)) → mapOpt f l = some (l.map g)
  | [], _ => rfl
  | a :: l, h => by
    have ha : f a = some (g a) := h a (List.mem_cons_self a l)
    have hl : mapOpt f l = some (l.map g) :=
      mapOpt_eq_map f g l fun x hx => h x (List.mem_cons_of_mem a hx)
    simp [mapOpt, ha, hl]

theorem print_headers_eq (t : Table) (hw : ∀ c ∈ t.columns, 1 ≤ c.width.getD 0) :
    print_headers t = some (headers_line t) := by
  unfold print_headers headers_line
  rw [mapOpt_eq_map _ (fun c => pad c.alignment (c.width.getD 0 - 1) c.header) t.columns ?_]
  · rfl
  · intro c hc
    have h1 : 1 ≤ c.width.getD 0 := hw c hc
    simp [usize_sub, h1]

theorem print_row_eq (t : Table) (row : List String)
    (hw : ∀ c ∈ t.columns, 1 ≤ c.width.getD 0) :
    print_row t row = some (row_line t row) := by
  unfold print_row row_line
  rw [mapOpt_eq_map _
      (fun pr : Column × String => pad pr.1.alignment (pr.1.width.getD 0 - 1) pr.2 ++ " ")
      (t.columns.zip row) ?_]
  · rfl
  · intro pr hpr
    have h1 : 1 ≤ pr.1.width.getD 0 := hw pr.1 (List.of_mem_zip hpr).1
    simp [usize_sub, h1]

theorem print_simple_eq (t : Table) (hw : ∀ c ∈ t.columns, 1 ≤ c.width.getD 0) :
    print_simple t = some (headers_line t ++ String.join (t.rows.map (row_line t))) := by
  unfold print_simple
  rw [print_headers_eq t hw, mapOpt_eq_map (print_row t) (row_line t) t.rows
      fun r _ => print_row_eq t r hw]
  rfl

end Lemmas

/-- One column of width zero: the concrete input on which the `width - 1`
computations of `print_headers` and `print_row` underflow. -/
def zwT : Table :=
  { columns := [{ header := "H", width := some 0, alignment := Alignment.Left }],
    rows := [["x"]], style := TableStyle.Simple, auto_width := true, page_size := none }

/-- C2: the claim says every rendering path that computes `w - 1` first
checks `w >= 1` and fails fast or clamps; the code has no such guard: on a
table with a column of width 0 the unchecked `usize` subtraction in
`print_headers` and `print_row` underflows (`none` marks the panic /
wrap), so the whole unbordered render fails rather than clamping. -/
theorem width_zero_subtraction_underflows :
    Table.print_headers zwT = none ∧ Table.print_row zwT ["x"] = none ∧
      Table.print_to_writer zwT = none := by
  refine ⟨by decide, by decide, by decide⟩

/-- A one-column Markdown-style table used to exhibit the dispatch bug. -/
def mdT : Table :=
  { columns := [{ header := "H", width := some 3, alignment := Alignment.Left }],
    rows := [["x"]], style := TableStyle.Markdown, auto_width := true, page_size := none }

/-- C1: the claim says rendering a Markdown-style table uses the Markdown
glyph set; in the code `print_color` renders it with `STYLES[9]` — the
Compact entry, one slot off from Markdown's entry `STYLES[10]` — producing
visibly different output, and `print_to_writer` sends Markdown (likewise
Dotted, Heavy, Neon) to the unbordered `print_simple` path instead of a
styled path with its glyph set. -/
theorem markdown_render_wrong_glyph_set :
    Table.print_color mdT = some [OutEvent.write (Table.print_styled mdT (styleAt 9))] ∧
      styleAt 9 ≠ styleAt 10 ∧
      Table.print_styled mdT (styleAt 9) ≠ Table.print_styled mdT (styleAt 10) ∧
      Table.print_to_writer mdT = Table.print_simple mdT ∧
      Table.print_to_writer mdT ≠ some (Table.print_styled mdT (styleAt 10)) := by
  refine ⟨by decide, by decide, by decide, rfl, by decide⟩

/-- C5: `add_row` appends the row exactly as given when its length equals
the column count, and fails hard (the `assert_eq!` panic, `none`) on any
other length — never a truncated or padded row. -/
theorem add_row_arity (t : Table) (row : List String) :
    (row.length ≠ t.columns.length → Table.add_row t row = none) ∧
      (row.length = t.columns.length →
        Table.add_row t row = some { t with rows := t.rows ++ [row] }) := by
  constructor
  · intro h
    simp only [Table.add_row, ite_eq_right_iff]
    intro h'
    exact absurd h'.symm h
  · intro h
    simp [Table.add_row, h]

/-- A one-column table with no rows yet. -/
def arT : Table :=
  { columns := [{ header := "H", width := some 3, alignment := Alignment.Left }],
    rows := [], style := TableStyle.Simple, auto_width := true, page_size := none }

/-- Witness for C5 at a concrete table: a two-cell row is rejected by the
one-column table, a one-cell row is appended unchanged. -/
theorem add_row_arity_witness :
    Table.add_row arT ["a", "b"] = none ∧
      Table.add_row arT ["a"] = some { arT with rows := arT.rows ++ [["a"]] } :=
  ⟨(add_row_arity arT ["a", "b"]).1 (by decide), (add_row_arity arT ["a"]).2 (by decide)⟩

/-- C9: the filter operation (modelled from the spec, it is absent from
src/) returns a table with the same column definitions, style and page
size, whose rows are exactly those satisfying the predicate; the source
table is untouched (the operation is pure in this embedding, as `filter`
takes the table by shared reference). -/
theorem filter_spec (t : Table) (p : List String → Bool) :
    (Table.filter t p).columns = t.columns ∧ (Table.filter t p).style = t.style ∧
      (Table.filter t p).page_size = t.page_size ∧
      (Table.filter t p).rows = t.rows.filter p :=
  ⟨rfl, rfl, rfl, rfl⟩

/-- The maximum cell byte length at column position `i` over all rows
(0 when there are no rows), as the claim words it. -/
def max_cell_len (rows : List (List String)) (i : Nat) : Nat :=
  (rows.map fun (r : List String) => (r.getD i "").utf8ByteSize).foldr Nat.max 0

/-- Default column used only as the out-of-range value of `List.getD`. -/
def dColumn : Column := { header := "", width := none, alignment := Alignment.Left }

theorem fold_max_append (l : List Nat) (h : Nat) :
    (l ++ [h]).foldr Nat.max 0 = Nat.max h (l.foldr Nat.max 0) := by
  induction l with
  | nil => rfl
  | cons a l ih => simp only [List.cons_append, List.foldr_cons, ih, Nat.max_left_comm]

theorem resolve_cols_getD (rows : List (List String)) :
    ∀ (cs : List Column) (i0 j : Nat) (d : Column), j < cs.length →
      (Table.resolve_cols rows i0 cs).getD j d = Table.resolve_one rows (i0 + j) (cs.getD j d)
  | [], _, j, _, h => absurd h (by simp)
  | c :: cs, i0, 0, d, _ => by
    show (Table.resolve_one rows i0 c :: Table.resolve_cols rows (i0 + 1) cs).getD 0 d = _
    simp [List.getD_cons_zero]
  | c :: cs, i0, j + 1, d, h => by
    have hj : j < cs.length := Nat.lt_of_succ_lt_succ h
    show (Table.resolve_one rows i0 c :: Table.resolve_cols rows (i0 + 1) cs).getD (j + 1) d = _
    rw [List.getD_cons_succ, List.getD_cons_succ, resolve_cols_getD rows cs (i0 + 1) j d hj]
    congr 1
    omega

theorem resolve_one_width_isSome (rows : List (List String)) (i : Nat) (c : Column) :
    (Table.resolve_one rows i c).width.isSome := by
  cases hw : c.width with
  | some w => simp [Table.resolve_one, hw]
  | none => simp [Table.resolve_one, hw]

theorem resolve_cols_width_isSome (rows : List (List String)) :
    ∀ (cs : List Column) (i : Nat), ∀ c ∈ Table.resolve_cols rows i cs, c.width.isSome
  | [], _, c, hc => absurd hc (by simp [Table.resolve_cols])
  | c0 :: cs, i, c, hc => by
    rcases List.mem_cons.mp hc with h | h
    · exact h ▸ resolve_one_width_isSome rows i c0
    · exact resolve_cols_width_isSome rows cs (i + 1) c h

theorem resolve_cols_of_isSome (rows : List (List String)) :
    ∀ (cs : List Column) (i : Nat), (∀ c ∈ cs, c.width.isSome) →
      Table.resolve_cols rows i cs = cs
  | [], _, _ => rfl
  | c :: cs, i, h => by
    have hc : c.width.isSome := h c (List.mem_cons_self c cs)
    have hone : Table.resolve_one rows i c = c := by
      cases hw : c.width with
      | some w => simp [Table.resolve_one, hw]
      | none => rw [hw] at hc; exact absurd hc (by simp)
    show Table.resolve_one rows i c :: Table.resolve_cols rows (i + 1) cs = c :: cs
    rw [hone, resolve_cols_of_isSome rows cs (i + 1) fun x hx => h x (List.mem_cons_of_mem c hx)]

/-- C3: width resolution gives each unset column
`max(header byte length, maximum cell byte length at its position) + 2`
and leaves a fixed-width column entirely unchanged.  `auto_width` is a
hypothesis because it is `true` on every constructible table (the field is
never set to `false` anywhere in the source).  `hwf` is the Row invariant
of the spec's data model (every row has the declared column count,
enforced by `add_row` at insertion time): on a table that violates it —
reachable only by declaring a column after rows were inserted — the
program's `row[i]` indexing panics instead of resolving, a case this
embedding's total `getD` does not model and the theorem therefore
excludes. -/
theorem calculate_column_widths_spec (t : Table) (hauto : t.auto_width = true)
    (hwf : ∀ r ∈ t.rows, r.length = t.columns.length)
    (i : Nat) (hi : i < t.columns.length) :
    ((Table.calculate_column_widths t).columns.getD i dColumn).width =
        some (match (t.columns.getD i dColumn).width with
          | some w => w
          | none =>
            Nat.max ((t.columns.getD i dColumn).header.utf8ByteSize) (max_cell_len t.rows i) + 2) ∧
      ((Table.calculate_column_widths t).columns.getD i dColumn).header =
        (t.columns.getD i dColumn).header ∧
      ((Table.calculate_column_widths t).columns.getD i dColumn).alignment =
        (t.columns.getD i dColumn).alignment := by
  have _hwf := hwf
  simp only [Table.calculate_column_widths, hauto, if_true]
  rw [resolve_cols_getD t.rows t.columns 0 i dColumn hi, Nat.zero_add]
  cases hw : (t.columns.getD i dColumn).width with
  | some w =>
    simp only [Table.resolve_one, hw]
    exact ⟨trivial, trivial, trivial⟩
  | none =>
    simp only [Table.resolve_one, hw]
    refine ⟨?_, trivial, trivial⟩
    rw [fold_max_append]
    rfl

/-- Two columns (one auto, one fixed) with two rows, for the C3 witness. -/
def cwT : Table :=
  { columns := [{ header := "Head", width := none, alignment := Alignment.Center },
      { header := "F", width := some 4, alignment := Alignment.Left }],
    rows := [["a", "bb"], ["ccc", "dd"]], style := TableStyle.Simple, auto_width := true,
    page_size := none }

/-- Witness for C3: on `cwT` the auto column resolves to
`max(4, 3) + 2 = 6` and the fixed column keeps width 4. -/
theorem calculate_column_widths_spec_witness :
    cwT.auto_width = true ∧ 0 < cwT.columns.length ∧ 1 < cwT.columns.length ∧
      ((Table.calculate_column_widths cwT).columns.getD 0 dColumn).width =
        some (match (cwT.columns.getD 0 dColumn).width with
          | some w => w
          | none =>
            Nat.max ((cwT.columns.getD 0 dColumn).header.utf8ByteSize) (max_cell_len cwT.rows 0) + 2) ∧
      ((Table.calculate_column_widths cwT).columns.getD 1 dColumn).width =
        some (match (cwT.columns.getD 1 dColumn).width with
          | some w => w
          | none =>
            Nat.max ((cwT.columns.getD 1 dColumn).header.utf8ByteSize) (max_cell_len cwT.rows 1) + 2) :=
  ⟨rfl, by decide, by decide,
    (calculate_column_widths_spec cwT rfl (by decide) 0 (by decide)).1,
    (calculate_column_widths_spec cwT rfl (by decide) 1 (by decide)).1⟩

/-- C4: width resolution is idempotent (a second run returns the table
unchanged), and resolving again after appending any rows leaves every
column — in particular every already-resolved width — unchanged. -/
theorem calculate_column_widths_idempotent_stable (t : Table) (rs : List (List String)) :
    Table.calculate_column_widths (Table.calculate_column_widths t) =
        Table.calculate_column_widths t ∧
      (Table.calculate_column_widths
          { Table.calculate_column_widths t with
            rows := (Table.calculate_column_widths t).rows ++ rs }).columns =
        (Table.calculate_column_widths t).columns := by
  by_cases hauto : t.auto_width = true
  · have hR : ∀ rows2 : List (List String),
        Table.resolve_cols rows2 0 (Table.resolve_cols t.rows 0 t.columns) =
          Table.resolve_cols t.rows 0 t.columns :=
      fun rows2 =>
        resolve_cols_of_isSome rows2 _ 0 (resolve_cols_width_isSome t.rows t.columns 0)
    have h1 : Table.calculate_column_widths t =
        { t with columns := Table.resolve_cols t.rows 0 t.columns } := by
      simp [Table.calculate_column_widths, hauto]
    rw [h1]
    constructor
    · simp [Table.calculate_column_widths, hauto, hR]
    · simp [Table.calculate_column_widths, hauto, hR]
  · have h1 : Table.calculate_column_widths t = t := by
      simp [Table.calculate_column_widths, hauto]
    rw [h1]
    constructor
    · rw [h1]
    · simp [Table.calculate_column_widths, hauto]

theorem add_all_eq : ∀ (rs : List (List String)) (t : Table),
    (∀ r ∈ rs, r.length = t.columns.length) →
      Table.add_all t rs = some { t with rows := t.rows ++ rs }
  | [], t, _ => by simp [Table.add_all]
  | r :: rs, t, h => by
    have hr : t.columns.length = r.length := (h r (List.mem_cons_self r rs)).symm
    have hrow : Table.add_row t r = some { t with rows := t.rows ++ [r] } := by
      simp [Table.add_row, hr]
    have ih := add_all_eq rs { t with rows := t.rows ++ [r] }
      fun x hx => h x (List.mem_cons_of_mem r hx)
    simp [Table.add_all, hrow, ih]

/-- The table that re-importing a record list produces when every record
gets through `add_row`: columns from the first record (width `Some(10)`,
Left), rows from the remaining records. -/
def reimported (records : List (List String)) : Table :=
  { columns := (records.headD []).map fun h => { header := h, width := some 10, alignment := Alignment.Left },
    rows := records.tail, style := TableStyle.Simple, auto_width := true, page_size := none }

/-- C8 (amended): exporting and re-importing loses the first row — the
importing path reads the first record of the file as headers, and the
export path wrote only rows, no header.  The re-imported table's rows are
the original rows with the head removed; its columns are built from the
first original row (width `Some(10)`, Left).  The amended claim is scoped
to tables whose rows all match the declared column count (`hwf`, the Row
invariant; with unequal row lengths — reachable via interleaved
`add_column` — the re-import fails instead, see the counterexample's
second part) and with at least one column (`hc`: the comma-separated
format cannot represent zero-field records, so the collaborator model
does not cover zero-column tables). -/
theorem csv_roundtrip_tail (t : Table)
    (hwf : ∀ r ∈ t.rows, r.length = t.columns.length)
    (hc : 1 ≤ t.columns.length) :
    Table.from_csv (Table.to_csv t) = some (reimported t.rows) := by
  have _hc := hc
  cases htr : t.rows with
  | nil => simp [Table.from_csv, Table.to_csv, htr, Table.add_all, reimported]
  | cons r rs =>
    have hx : ∀ x ∈ rs, x.length =
        ((r.map fun h =>
          ({ header := h, width := some 10, alignment := Alignment.Left } : Column)).length) := by
      intro x hxm
      have h1 : x.length = t.columns.length := hwf x (htr ▸ List.mem_cons_of_mem r hxm)
      have h2 : r.length = t.columns.length := hwf r (htr ▸ List.mem_cons_self r rs)
      simp [h1, h2]
    have hall := add_all_eq rs
      { columns := r.map fun h =>
          ({ header := h, width := some 10, alignment := Alignment.Left } : Column),
        rows := [], style := TableStyle.Simple, auto_width := true, page_size := none }
      hx
    simp [Table.from_csv, Table.to_csv, htr, hall, reimported]

/-- One column, two rows: the concrete round-trip input. -/
def csvT : Table :=
  { columns := [{ header := "A", width := some 10, alignment := Alignment.Left }],
    rows := [["a"], ["b"]], style := TableStyle.Simple, auto_width := true, page_size := none }

/-- Two columns with rows of unequal length — reachable by declaring the
second column after the first row was inserted. -/
def csvU : Table :=
  { columns := [{ header := "A", width := some 10, alignment := Alignment.Left },
      { header := "B", width := some 10, alignment := Alignment.Left }],
    rows := [["a"], ["x", "y"]], style := TableStyle.Simple, auto_width := true,
    page_size := none }

/-- Counterexample to C8 as stated, in two parts.  First, exporting
`csvT` (rows `[a]`, `[b]`) and importing the result yields rows `[b]`
only — the first row was consumed as the header record — so row cell
contents are not preserved.  Second, on `csvU`, whose rows have unequal
lengths, the re-import fails entirely (the second record's length differs
from the header record's; the csv reader rejects unequal-length
records), so no table with the original row contents comes back. -/
theorem csv_roundtrip_counterexample :
    ((Table.from_csv (Table.to_csv csvT)).map Table.rows = some [["b"]] ∧
      some [["b"]] ≠ some csvT.rows) ∧
      Table.from_csv (Table.to_csv csvU) = none :=
  ⟨⟨by decide, by decide⟩, by decide⟩

/-- Witness for C8 (amended) at `csvT`. -/
theorem csv_roundtrip_tail_witness :
    Table.from_csv (Table.to_csv csvT) = some (reimported csvT.rows) :=
  csv_roundtrip_tail csvT (by decide) (by decide)

/-- The unbordered header+rows listing exactly as the claim words it:
every cell padded to `width - 1` by its alignment, the cells of each line
(header line and every data line alike) joined by single spaces. -/
def unbordered_listing (t : Table) : String :=
  String.intercalate " "
      (t.columns.map fun c => pad c.alignment (c.width.getD 0 - 1) c.header) ++ "\n"
    ++ String.join (t.rows.map fun r =>
        String.intercalate " "
            ((t.columns.zip r).map fun pr => pad pr.1.alignment (pr.1.width.getD 0 - 1) pr.2)
          ++ "\n")

/-- A Simple-style table (all four glyph sets empty) with one row. -/
def emptyT : Table :=
  { columns := [{ header := "H", width := some 3, alignment := Alignment.Left }],
    rows := [["x"]], style := TableStyle.Simple, auto_width := true, page_size := none }

/-- Counterexample to C7 as stated, in two parts.  First, Simple's four
glyph sets are all empty, yet the render output is not byte-for-byte the
single-space-joined listing — the data line carries one extra trailing space
("x  \n" versus "x \n").  Second, on the zero-width Simple table
`zwT` — equally covered by the claim's "for every table" — the render
fails outright (the unguarded `width - 1` of C2), equalling no listing
at all. -/
theorem empty_style_listing_counterexample :
    (config_empty (styleAt (style_index emptyT.style)) = true ∧
      Table.print_to_writer emptyT ≠ some (unbordered_listing emptyT)) ∧
      (config_empty (styleAt (style_index zwT.style)) = true ∧
        Table.print_to_writer zwT = none ∧
        Table.print_to_writer zwT ≠ some (unbordered_listing zwT)) :=
  ⟨⟨by decide, by decide⟩, ⟨by decide, by decide, by decide⟩⟩

/-- C7 (amended): for every table whose style's four registry glyph sets
are all empty (Simple and Amiga) and all of whose column widths are at
least 1 (a zero-width column instead makes the unguarded `width - 1`
formatting underflow and the whole render fail, cf. C2 and the second
part of the counterexample), the plain render equals the unbordered
listing in which header cells are space-separated between columns and
every data cell carries one trailing separator space (so each data line
ends in a space). -/
theorem empty_style_render_unbordered (t : Table)
    (hempty : config_empty (styleAt (style_index t.style)) = true)
    (hw : ∀ c ∈ t.columns, 1 ≤ c.width.getD 0) :
    Table.print_to_writer t =
      some (Table.headers_line t ++ String.join (t.rows.map (Table.row_line t))) := by
  have hsimple := print_simple_eq t hw
  cases hstyle : t.style <;>
    first
      | (rw [hstyle] at hempty; exact absurd hempty (by decide))
      | simp [Table.print_to_writer, hstyle, hsimple]

/-- An Amiga-style table (the other all-empty glyph set) with two rows. -/
def amigaT : Table :=
  { columns := [{ header := "H", width := some 4, alignment := Alignment.Right }],
    rows := [["aa"], ["b"]], style := TableStyle.Amiga, auto_width := true, page_size := none }

/-- Witness for C7 (amended) at `amigaT`. -/
theorem empty_style_render_unbordered_witness :
    Table.print_to_writer amigaT =
      some (Table.headers_line amigaT ++ String.join (amigaT.rows.map (Table.row_line amigaT))) :=
  empty_style_render_unbordered amigaT (by decide) (by decide)

theorem print_page_eq (t : Table) (hw : ∀ c ∈ t.columns, 1 ≤ c.width.getD 0) (s e : Nat) :
    Table.print_page t s e =
      some (Table.headers_line t
        ++ String.join (((t.rows.drop s).take (e - s)).map (Table.row_line t))) := by
  unfold Table.print_page
  rw [print_headers_eq t hw,
    mapOpt_eq_map (Table.print_row t) (Table.row_line t) _ fun r _ => print_row_eq t r hw]
  rfl

/-- C10 (amended): with no page size set, the page size defaults to the
row count; provided every column width is set and at least 1
(`print_color_paginated` never resolves widths; an unset or zero width
makes the unguarded `width - 1` formatting underflow and the render fail,
cf. C2 and the counterexample), a table with at least one row prints as
exactly one page — one page header, then headers and every row — with no
pause, while a table with zero rows makes the total-page computation fail
(0 + 0 - 1 underflows and the division is by zero) instead of emitting
zero pages.  `hn` bounds the row count so that `len + len` does not
overflow `usize`, which holds for every materializable `Vec`. -/
theorem paginated_default_page_size (t : Table)
    (hps : t.page_size = none)
    (hw : ∀ c ∈ t.columns, 1 ≤ c.width.getD 0)
    (hn : t.rows.length + t.rows.length ≤ USIZE_MAX) :
    Table.print_color_paginated t =
      if t.rows.length = 0 then none
      else
        some [OutEvent.write "Page 1 of 1\n",
          OutEvent.write (Table.headers_line t ++ String.join (t.rows.map (Table.row_line t)))] := by
  by_cases hz : t.rows.length = 0
  · have hsub : usize_sub (t.rows.length + t.rows.length) 1 = none := by
      unfold usize_sub
      rw [if_neg (by omega : ¬ 1 ≤ t.rows.length + t.rows.length)]
    simp [Table.print_color_paginated, hps, hz, usize_add, hsub]
  · have hadd : usize_add t.rows.length t.rows.length =
        some (t.rows.length + t.rows.length) := by
      unfold usize_add
      rw [if_pos hn]
    have hsub : usize_sub (t.rows.length + t.rows.length) 1 =
        some (t.rows.length + t.rows.length - 1) := by
      unfold usize_sub
      rw [if_pos (by omega : 1 ≤ t.rows.length + t.rows.length)]
    have htot : (t.rows.length + t.rows.length - 1) / t.rows.length = 1 := by
      have h1 : t.rows.length + t.rows.length - 1 = (t.rows.length - 1) + t.rows.length := by
        omega
      rw [h1, Nat.add_div_right _ (Nat.pos_of_ne_zero hz), Nat.div_eq_of_lt (by omega)]
    have hrange : List.range 1 = [0] := by decide
    have hpage : Table.print_page t 0 t.rows.length =
        some (Table.headers_line t ++ String.join (t.rows.map (Table.row_line t))) := by
      have h := print_page_eq t hw 0 t.rows.length
      rw [List.drop_zero, Nat.sub_zero, List.take_of_length_le (Nat.le_refl _)] at h
      exact h
    simp only [Table.print_color_paginated, hps, Option.getD_none, hadd, Option.some_bind,
      hsub, if_neg hz, htot, hrange, mapOpt, Nat.zero_mul, Nat.zero_add, Nat.one_mul,
      min_self, Nat.sub_zero, hpage, Nat.sub_self, Nat.lt_irrefl,
      if_false, List.append_nil, Option.map_some, Option.none_bind]
    rfl

/-- One column, two rows, no page size: the C10 witness table. -/
def dpT : Table :=
  { columns := [{ header := "H", width := some 3, alignment := Alignment.Left }],
    rows := [["a"], ["b"]], style := TableStyle.Simple, auto_width := true, page_size := none }

/-- Witness for C10 (amended) at `dpT`: one page, both rows, no pause. -/
theorem paginated_default_page_size_witness :
    Table.print_color_paginated dpT =
      if dpT.rows.length = 0 then none
      else
        some [OutEvent.write "Page 1 of 1\n",
          OutEvent.write (Table.headers_line dpT ++ String.join (dpT.rows.map (Table.row_line dpT)))] :=
  paginated_default_page_size dpT rfl (by decide) (by decide)

/-- One unresolved-width column, one row, no page size set. -/
def wzT : Table :=
  { columns := [{ header := "H", width := none, alignment := Alignment.Left }],
    rows := [["x"]], style := TableStyle.Simple, auto_width := true, page_size := none }

/-- Counterexample to C10 as stated: `wzT` has one row and no page size,
so the claim promises a single page with that row and no pause; but
`print_color_paginated` never resolves widths, the unresolved width reads
as 0 and the unguarded `width - 1` cell formatting underflows (cf. C2),
so the render fails instead of emitting the page. -/
theorem paginated_default_width_counterexample :
    wzT.page_size = none ∧ wzT.rows.length = 1 ∧
      Table.print_color_paginated wzT = none :=
  ⟨rfl, by decide, by decide⟩

theorem chunk_take_eq {α : Type u} (l : List α) (p page : Nat) :
    (l.drop (page * p)).take (min ((page + 1) * p) l.length - page * p) =
      (l.drop (page * p)).take p := by
  rcases Nat.le_total ((page + 1) * p) l.length with h | h
  · rw [min_eq_left h]
    congr 1
    have hs : (page + 1) * p = page * p + p := Nat.succ_mul page p
    omega
  · rw [min_eq_right h]
    have hlen : (l.drop (page * p)).length = l.length - page * p := List.length_drop _ _
    have hs : (page + 1) * p = page * p + p := Nat.succ_mul page p
    rw [List.take_of_length_le (by omega), List.take_of_length_le (by omega)]

theorem chunks_cover {α : Type u} (p : Nat) (hp : 1 ≤ p) :
    ∀ (n : Nat) (l : List α), l.length = n →
      (List.range ((n + p - 1) / p)).flatMap (fun i => (l.drop (i * p)).take p) = l := by
  intro n
  induction n using Nat.strong_induction_on with
  | _ n ih =>
    intro l hl
    rcases Nat.eq_zero_or_pos n with hz | hpos
    · subst hz
      rw [show (0 + p - 1) / p = 0 from Nat.div_eq_of_lt (by omega)]
      simp [List.length_eq_zero.mp hl]
    · have htot : (n + p - 1) / p = (n - 1) / p + 1 := by
        rw [show n + p - 1 = (n - 1) + p from by omega, Nat.add_div_right _ (by omega : 0 < p)]
      have hk : (n - p + p - 1) / p = (n - 1) / p := by
        rcases Nat.le_total n p with hnp | hnp
        · rw [show n - p + p - 1 = p - 1 from by omega, Nat.div_eq_of_lt (by omega),
            Nat.div_eq_of_lt (by omega : n - 1 < p)]
        · congr 1
          omega
      have ihd := ih (n - p) (by omega) (l.drop p) (by rw [List.length_drop, hl])
      rw [hk] at ihd
      rw [htot, List.range_succ_eq_map, List.flatMap_cons, List.flatMap_map]
      have harg : (fun a : Nat => (l.drop (a.succ * p)).take p) =
          fun i : Nat => ((l.drop p).drop (i * p)).take p := by
        funext i
        rw [List.drop_drop, Nat.succ_mul, Nat.add_comm (i * p) p]
      rw [harg, ihd, Nat.zero_mul, List.drop_zero, List.take_append_drop]

/-- One page of the expected paginated output: page header line, the
header+chunk body, and — when the page is not the last — the prompt line
and the blocking pause. -/
def page_block (t : Table) (p total page : Nat) : List OutEvent :=
  [OutEvent.write ("Page " ++ toString (page + 1) ++ " of " ++ toString total ++ "\n"),
    OutEvent.write (Table.headers_line t
      ++ String.join (((t.rows.drop (page * p)).take p).map (Table.row_line t)))]
    ++ if page < total - 1 then [OutEvent.write "Press Enter to continue...\n", OutEvent.pause]
      else []

/-- The full expected paginated output for page size `p`:
`ceil(row_count / p)` pages of `page_block`s, concatenated. -/
def paginated_expected (t : Table) (p : Nat) : List OutEvent :=
  List.flatten ((List.range ((t.rows.length + p - 1) / p)).map
    (page_block t p ((t.rows.length + p - 1) / p)))

/-- Three rows with page size `2^64 - 2`: the pagination arithmetic
overflows `usize`. -/
def ovT : Table :=
  { columns := [{ header := "H", width := some 3, alignment := Alignment.Left }],
    rows := [["a"], ["b"], ["c"]], style := TableStyle.Simple, auto_width := true,
    page_size := some (2 ^ 64 - 2) }

/-- One unresolved-width column, one row, page size 1: paginated
rendering never resolves widths, so the `width - 1` formatting
underflows. -/
def uwT : Table :=
  { columns := [{ header := "H", width := none, alignment := Alignment.Left }],
    rows := [["x"]], style := TableStyle.Simple, auto_width := true, page_size := some 1 }

/-- Counterexample to C6 as stated, in two parts.  First, with page size
`p = 2^64 - 2 ≥ 1` and 3 rows the claim promises one page of 3 rows, but
`rows.len() + page_size` exceeds `usize::MAX`, so the render fails
(overflow panic in debug; in release the wrapped total is 0 and zero
pages are emitted) instead of producing `ceil(3/p) = 1` page.  Second,
with page size `1 ≥ 1` but an unresolved column width — reachable, since
`print_color_paginated` never calls `calculate_column_widths` — the
render fails on the unguarded `width - 1` (cf. C2) instead of emitting
the promised single page. -/
theorem paginated_claim_counterexample :
    (ovT.page_size = some (2 ^ 64 - 2) ∧ 1 ≤ 2 ^ 64 - 2 ∧ ovT.rows.length = 3 ∧
      Table.print_color_paginated ovT = none) ∧
      (uwT.page_size = some 1 ∧ uwT.rows.length = 1 ∧
        Table.print_color_paginated uwT = none) :=
  ⟨⟨rfl, by decide, by decide, by decide⟩, ⟨rfl, by decide, by decide⟩⟩

/-- C6 (amended): for every table all of whose column widths are set and
at least 1 (`print_color_paginated` never resolves widths; an unset or
zero width makes the unguarded `width - 1` formatting underflow and the
render fail, cf. C2 and the counterexample's second part) and every page
size `p ≥ 1` with `row_count + p ≤ usize::MAX` (no overflow), paginated
rendering emits `ceil(row_count / p)` pages, each a "Page n of total"
header followed by the column headers and that page's chunk
`rows[n*p ..< min((n+1)*p, len)]`, with the interactive pause after every
page but the last; the chunks are the contiguous `p`-sized chunks of the
rows (all of size `p` except possibly the last), and together they cover
the rows exactly. -/
theorem print_color_paginated_spec (t : Table) (p : Nat)
    (hps : t.page_size = some p) (hp : 1 ≤ p)
    (hov : t.rows.length + p ≤ USIZE_MAX)
    (hw : ∀ c ∈ t.columns, 1 ≤ c.width.getD 0) :
    Table.print_color_paginated t = some (paginated_expected t p) ∧
      (List.range ((t.rows.length + p - 1) / p)).flatMap
          (fun page => (t.rows.drop (page * p)).take p) = t.rows ∧
      ((List.range ((t.rows.length + p - 1) / p)).map
          (fun page => ((t.rows.drop (page * p)).take p).length)).dropLast =
        List.replicate ((t.rows.length + p - 1) / p - 1) p := by
  have hadd : usize_add t.rows.length p = some (t.rows.length + p) := by
    unfold usize_add
    rw [if_pos hov]
  have hsub : usize_sub (t.rows.length + p) 1 = some (t.rows.length + p - 1) := by
    unfold usize_sub
    rw [if_pos (by omega : 1 ≤ t.rows.length + p)]
  refine ⟨?_, chunks_cover p hp t.rows.length t.rows rfl, ?_⟩
  · have hmap : mapOpt (fun page =>
        (Table.print_page t (page * p) (min ((page + 1) * p) t.rows.length)).map fun body =>
          [OutEvent.write ("Page " ++ toString (page + 1) ++ " of "
              ++ toString ((t.rows.length + p - 1) / p) ++ "\n"),
            OutEvent.write body]
            ++ if page < (t.rows.length + p - 1) / p - 1 then
                [OutEvent.write "Press Enter to continue...\n", OutEvent.pause]
              else [])
        (List.range ((t.rows.length + p - 1) / p)) =
        some ((List.range ((t.rows.length + p - 1) / p)).map
          (page_block t p ((t.rows.length + p - 1) / p))) := by
      apply mapOpt_eq_map
      intro page _
      rw [print_page_eq t hw, chunk_take_eq t.rows p page]
      rfl
    simp only [Table.print_color_paginated, hps, Option.getD_some, hadd, Option.some_bind,
      hsub, if_neg (by omega : ¬ p = 0), hmap, Option.map_some, paginated_expected]
    rfl
  · rw [List.dropLast_eq_take, List.length_map, List.length_range, ← List.map_take,
      List.take_range, min_eq_left (Nat.sub_le _ _)]
    refine List.eq_replicate_iff.mpr ⟨by simp, ?_⟩
    intro b hb
    rcases List.mem_map.mp hb with ⟨page, hpage, hval⟩
    have hlt : page < (t.rows.length + p - 1) / p - 1 := List.mem_range.mp hpage
    have hle : page + 2 ≤ (t.rows.length + p - 1) / p := by
      revert hlt
      generalize (t.rows.length + p - 1) / p = D
      intro hlt
      omega
    have hmul : (page + 2) * p ≤ t.rows.length + p - 1 :=
      (Nat.le_div_iff_mul_le (by omega : 0 < p)).mp hle
    have hchunk : page * p + p ≤ t.rows.length := by
      have hs : (page + 2) * p = page * p + p + p := by ring
      omega
    rw [← hval, List.length_take, List.length_drop]
    omega

/-- One column, five rows, page size 2: the C6 witness table
(3 pages of 2, 2 and 1 rows). -/
def pgT : Table :=
  { columns := [{ header := "H", width := some 3, alignment := Alignment.Left }],
    rows := [["a"], ["b"], ["c"], ["d"], ["e"]], style := TableStyle.Simple,
    auto_width := true, page_size := some 2 }

/-- Witness for C6 (amended) at `pgT`: the render equals the three
expected page blocks, the chunks cover the rows, and every non-final
chunk has exactly 2 rows. -/
theorem print_color_paginated_spec_witness :
    Table.print_color_paginated pgT = some (paginated_expected pgT 2) ∧
      (List.range ((pgT.rows.length + 2 - 1) / 2)).flatMap
          (fun page => (pgT.rows.drop (page * 2)).take 2) = pgT.rows ∧
      ((List.range ((pgT.rows.length + 2 - 1) / 2)).map
          (fun page => ((pgT.rows.drop (page * 2)).take 2).length)).dropLast =
        List.replicate ((pgT.rows.length + 2 - 1) / 2 - 1) 2 :=
  print_color_paginated_spec pgT 2 rfl (by decide) (by decide) (by decide)

end Tabprinter
